import Mathlib

/-!
Shallow embedding of the hubble-ui fragment:

* the arrow-geometry and flatten logic of
  `src/client/src/components/ArrowsRenderer/index.tsx`
  (`arrowHandleFromPoints`, the flattening phase of `manageArrows`, and the
  keyed enter/update/exit join it delegates to), and
* the render conditions of `src/src/components/AccessPoint/index.tsx`.

The geometry primitives (`Vec2`, its vector operations) and the layout data
types (`SenderArrows`, `ConnectorArrow`) come from modules outside the given
sources (`~/domain/geometry`, `~/domain/layout`); those are modelled from the
spec, as marked on each definition.  Real numbers model the ideal arithmetic
of the floating-point source.
-/

/-- Modelled from the spec: `Vec2` (from the out-of-scope `~/domain/geometry`
module) is "a 2D point (x, y) with vector operations (distance, subtract, add,
normalize, linear interpolation, scalar multiply). Immutable value type." -/
structure Vec2 where
  x : ℝ
  y : ℝ

namespace Vec2

/-- Modelled from the spec: componentwise vector addition. -/
def add (a b : Vec2) : Vec2 := ⟨a.x + b.x, a.y + b.y⟩

/-- Modelled from the spec: componentwise vector subtraction (`a.sub b` is
`a - b`). -/
def sub (a b : Vec2) : Vec2 := ⟨a.x - b.x, a.y - b.y⟩

/-- Modelled from the spec: scalar multiply. -/
def mul (a : Vec2) (k : ℝ) : Vec2 := ⟨a.x * k, a.y * k⟩

/-- Euclidean magnitude of a vector, used by `normalize` and `distance`. -/
noncomputable def magnitude (a : Vec2) : ℝ := Real.sqrt (a.x ^ 2 + a.y ^ 2)

/-- Modelled from the spec: distance between two points. -/
noncomputable def distance (a b : Vec2) : ℝ := (b.sub a).magnitude

/-- The exact-zero test the source applies to a direction vector
(`direction.isZero()`). -/
def isZero (a : Vec2) : Prop := a.x = 0 ∧ a.y = 0

noncomputable instance : DecidablePred isZero := fun a => by
  unfold isZero; exact Classical.propDecidable _

/-- Modelled from the spec: `normalize` scales a vector to unit magnitude.
A zero vector has no direction; it stays zero, which is what the handle
computation's subsequent `isZero` test detects ("if the direction has zero
magnitude (degenerate — the two points coincide), return none"). -/
noncomputable def normalize (a : Vec2) : Vec2 :=
  if a.magnitude = 0 then ⟨0, 0⟩ else ⟨a.x / a.magnitude, a.y / a.magnitude⟩

/-- Modelled from the spec: linear interpolation, `a.linterp b t = a + (b-a)*t`. -/
def linterp (a b : Vec2) (t : ℝ) : Vec2 := a.add ((b.sub a).mul t)

theorem ext_xy {a b : Vec2} (hx : a.x = b.x) (hy : a.y = b.y) : a = b := by
  cases a; cases b; simp_all

theorem magnitude_eq_zero_iff (a : Vec2) : a.magnitude = 0 ↔ a = ⟨0, 0⟩ := by
  constructor
  · intro h
    have hle : a.x ^ 2 + a.y ^ 2 ≤ 0 := Real.sqrt_eq_zero'.mp (by simpa [magnitude] using h)
    have hx : a.x ^ 2 + a.y ^ 2 = 0 := le_antisymm hle (by positivity)
    have hx0 : a.x = 0 := by nlinarith [sq_nonneg a.x, sq_nonneg a.y]
    have hy0 : a.y = 0 := by nlinarith [sq_nonneg a.x, sq_nonneg a.y]
    exact ext_xy hx0 hy0
  · intro h
    subst h
    simp [magnitude]

theorem normalize_isZero_iff (a : Vec2) : a.normalize.isZero ↔ a = ⟨0, 0⟩ := by
  by_cases h : a.magnitude = 0
  · simp [normalize, h, isZero, (magnitude_eq_zero_iff a).mp h]
  · have hne : a ≠ ⟨0, 0⟩ := fun hz => h ((magnitude_eq_zero_iff a).mpr hz)
    simp only [normalize, if_neg h, isZero]
    constructor
    · rintro ⟨hx, hy⟩
      exact absurd (ext_xy (by field_simp at hx ⊢; exact hx) (by field_simp at hy ⊢; exact hy)) hne
    · intro hz; exact absurd hz hne

end Vec2

/-- Embedding of `arrowHandleFromPoints` from
`src/client/src/components/ArrowsRenderer/index.tsx` (lines 177-191).  The
source reads the fixed constant `sizes.arrowHandleWidth` from the
out-of-scope `~/ui/vars`; it is taken as the parameter `arrowHandleWidth`
here.  `stop` stands for the source's `end` (a reserved word in Lean). -/
noncomputable def arrowHandleFromPoints (arrowHandleWidth : ℝ) (points : List Vec2) :
    Option (Vec2 × Vec2) :=
  if h3 : points.length < 3 then none
  else
    let start := points.get ⟨1, by omega⟩
    let stop := points.get ⟨2, by omega⟩
    let mid := start.linterp stop 0.5
    let direction := (stop.sub start).normalize
    if direction.isZero then none
    else
      let handleFrom := mid.sub (direction.mul (arrowHandleWidth / 2))
      let handleTo := mid.add (direction.mul (arrowHandleWidth / 2))
      some (handleFrom, handleTo)

/-- Modelled from the spec: the connector of a `ConnectorArrow` is "a dot
entity with a screen position and the set of access-point ids it fans out to"
(`~/domain/layout`, out of scope).  The id set is modelled as a list;
duplicate-freedom (a TS `Set` property) is a separate well-formedness
hypothesis. -/
structure Connector where
  position : Vec2
  apIds : List String

/-- Modelled from the spec: `ConnectorArrow` is "one receiver's visual path
segment — an ordered sequence of Vec2 waypoints, plus a connector". -/
structure ConnectorArrow where
  points : List Vec2
  connector : Connector

/-- Modelled from the spec: `SenderArrows` is "one sender's bundle — a start
point (Vec2) and a mapping from receiver-id to ConnectorArrow".  A TS `Map`,
iterated in insertion order, is modelled as an association list. -/
structure SenderArrows where
  startPoint : Vec2
  arrows : List (String × ConnectorArrow)

/-- `ArrowData` from the source (lines 24-27): full point sequence plus the
optional handle segment. -/
structure ArrowData where
  points : List Vec2
  handle : Option (Vec2 × Vec2)

/-- The composite key the source builds with a template literal:
`${senderId} -> ${receiverId}` (line 215).  The feet key of line 229 is the
same combinator applied again: `${fromToId} -> ${apId}`. -/
def fromToId (senderId receiverId : String) : String :=
  senderId ++ " -> " ++ receiverId

/-- The four flat collections the flattening phase of `manageArrows` builds
(source lines 203-237), each as a keyed array in push order.  (The source
also declares an `arrowHandles` array but never pushes to it, so it is not
modelled.) -/
structure FlattenResult where
  startPlates : List (String × Vec2)
  arrows : List (String × ArrowData)
  connectors : List (String × Vec2)
  feets : List (String × (Vec2 × Vec2))

/-- Embedding of the flattening phase of `manageArrows` (source lines
203-237): one pass over the sender-arrows map pushing into four flat arrays.
Pushes go to distinct arrays, so each collection equals the corresponding
comprehension over the input in iteration order.  `apPositions` models the
TS `Map.get`, returning `none` for an unknown access-point id. -/
noncomputable def manageArrowsFlatten (arrowHandleWidth : ℝ)
    (arrowsMap : List (String × SenderArrows))
    (apPositions : String → Option Vec2) : FlattenResult :=
  { startPlates := arrowsMap.map fun s => (s.1, s.2.startPoint)
  , arrows := arrowsMap.flatMap fun s =>
      s.2.arrows.map fun r =>
        (fromToId s.1 r.1,
         { points := s.2.startPoint :: r.2.points
         , handle := arrowHandleFromPoints arrowHandleWidth (s.2.startPoint :: r.2.points) })
  , connectors := arrowsMap.flatMap fun s =>
      s.2.arrows.map fun r => (fromToId s.1 r.1, r.2.connector.position)
  , feets := arrowsMap.flatMap fun s =>
      s.2.arrows.flatMap fun r =>
        r.2.connector.apIds.filterMap fun apId =>
          match apPositions apId with
          | none => none
          | some apPosition =>
            some (fromToId (fromToId s.1 r.1) apId,
                  (r.2.connector.position, apPosition)) }

/-- The key column of a keyed collection (what d3's key function `d => d[0]`
extracts). -/
def keysOf {α : Type} (l : List (String × α)) : List String := l.map Prod.fst

/-- The three partitions of the keyed enter/update/exit join, as the spec's
design note describes it: "created = next−previous, updated = next∩previous,
removed = previous−next". -/
structure JoinResult where
  created : List String
  updated : List String
  removed : List String

/-- The keyed join underlying d3's `selection.data(..., key).join(...)`
(source lines 261-279), at the level of keys. -/
def keyedJoin (previous next : List String) : JoinResult :=
  { created := next.filter fun k => !previous.contains k
  , updated := next.filter fun k => previous.contains k
  , removed := previous.filter fun k => !next.contains k }

/-- The keys rendered in one group after a join pass: the updated and created
nodes remain (merged in data order), the removed ones are deleted. -/
def afterJoin (previous next : List String) : List String :=
  (keyedJoin previous next).updated ++ (keyedJoin previous next).created

/-- The keys of the visual nodes currently rendered in the four layered
groups of the scene subtree. -/
structure SceneKeys where
  startPlates : List String
  arrows : List String
  connectors : List String
  feets : List String

/-- One full `manageArrows` pass at the key level: rebuild the four flat
collections from the inputs, then reconcile each against its rendered group
by keyed join (source lines 193-280). -/
noncomputable def manageArrowsPass (arrowHandleWidth : ℝ)
    (arrowsMap : List (String × SenderArrows))
    (apPositions : String → Option Vec2) (scene : SceneKeys) : SceneKeys :=
  let f := manageArrowsFlatten arrowHandleWidth arrowsMap apPositions
  { startPlates := afterJoin scene.startPlates (keysOf f.startPlates)
  , arrows := afterJoin scene.arrows (keysOf f.arrows)
  , connectors := afterJoin scene.connectors (keysOf f.connectors)
  , feets := afterJoin scene.feets (keysOf f.feets) }

/-- Well-formedness the TS types guarantee by construction: `Map` keys are
unique at both levels, and a connector's fan-out id set (a TS `Set`) has no
duplicates. -/
def WellFormedInput (arrowsMap : List (String × SenderArrows)) : Prop :=
  (keysOf arrowsMap).Nodup ∧
    ∀ s ∈ arrowsMap, (keysOf s.2.arrows).Nodup ∧
      ∀ r ∈ s.2.arrows, r.2.connector.apIds.Nodup

/-- An id that avoids the character the composite-key separator `" -> "` is
recognised by. -/
def GtFree (s : String) : Prop := '>' ∉ s.data

/-- All sender and receiver ids in the input avoid the separator character.
(Access-point ids need no such restriction: they sit in the last position of
the feet key, where plain append cancellation applies.) -/
def GtFreeIds (arrowsMap : List (String × SenderArrows)) : Prop :=
  ∀ s ∈ arrowsMap, GtFree s.1 ∧ ∀ r ∈ s.2.arrows, GtFree r.1

/-- Modelled from the spec: the L4 protocol enumeration of the out-of-scope
`~/domain/hubble`, with "the ICMP variants (ICMPv4/ICMPv6)" alongside the
ordinary transport protocols. -/
inductive IPProtocol
  | TCP | UDP | ICMPv4 | ICMPv6
deriving DecidableEq

/-- Modelled from the spec: the L7 protocol enumeration of the out-of-scope
`~/domain/hubble`, with the "Unknown" sentinel alongside concrete L7
protocols. -/
inductive L7Kind
  | Unknown | HTTP | DNS | Kafka
deriving DecidableEq

/-- The props of `AccessPoint` (source lines 11-17).  `verdicts` and
`connectorRef` take no part in what is rendered, so they are not modelled;
an absent optional `l7Protocol` is `none`. -/
structure AccessPointProps where
  port : Nat
  l4Protocol : IPProtocol
  l7Protocol : Option L7Kind

/-- `showPort` from the source (line 29). -/
def showPort (props : AccessPointProps) : Bool :=
  props.l4Protocol != IPProtocol.ICMPv4 && props.l4Protocol != IPProtocol.ICMPv6

/-- `showL7Protocol` from the source (line 31): `props.l7Protocol != null &&
props.l7Protocol !== L7Kind.Unknown`. -/
def showL7Protocol (props : AccessPointProps) : Bool :=
  props.l7Protocol.isSome && props.l7Protocol != some L7Kind.Unknown

/-- The data-bearing pieces of `AccessPoint`'s render output: the optional
port element, the always-present L4 label, and the optional L7 label. -/
structure AccessPointRender where
  portElem : Option Nat
  l4Elem : IPProtocol
  l7Elem : Option L7Kind

/-- Embedding of the `AccessPoint` render (source lines 38-78).  The port
block is guarded by `showPort` (line 56); the L7 block by
`props.l7Protocol && showL7Protocol` (line 68), whose first conjunct is JS
truthiness of the enum value, modelled as presence of the optional value. -/
def accessPointRender (props : AccessPointProps) : AccessPointRender :=
  { portElem := if showPort props then some props.port else none
  , l4Elem := props.l4Protocol
  , l7Elem :=
      if props.l7Protocol.isSome && showL7Protocol props then props.l7Protocol
      else none }

/-! ### Composite-key structure

The composite keys are built by raw string interpolation around the
separator `" -> "`.  The lemmas below isolate when that construction can be
inverted: the position of the first `'>'` character pins down the first
component, so keys built from `'>'`-free first components are injective, and
a fixed prefix always cancels. -/

theorem indexOf_gt_sep (s t : List Char) (h : '>' ∉ s) :
    List.indexOf '>' (s ++ (' ' :: '-' :: '>' :: ' ' :: t)) = s.length + 2 := by
  rw [List.indexOf_append_of_not_mem h, List.indexOf_cons_ne _ (by decide),
    List.indexOf_cons_ne _ (by decide), List.indexOf_cons_self]

theorem sep_append_inj {s₁ s₂ t₁ t₂ : List Char}
    (h₁ : '>' ∉ s₁) (h₂ : '>' ∉ s₂)
    (h : s₁ ++ (' ' :: '-' :: '>' :: ' ' :: t₁) = s₂ ++ (' ' :: '-' :: '>' :: ' ' :: t₂)) :
    s₁ = s₂ ∧ t₁ = t₂ := by
  have hlen : s₁.length = s₂.length := by
    have hidx := congrArg (List.indexOf '>') h
    rw [indexOf_gt_sep _ _ h₁, indexOf_gt_sep _ _ h₂] at hidx
    omega
  obtain ⟨hs, ht⟩ := List.append_inj h hlen
  exact ⟨hs, by simpa using ht⟩

theorem fromToId_data (s r : String) :
    (fromToId s r).data = s.data ++ (' ' :: '-' :: '>' :: ' ' :: r.data) := by
  have h1 : (fromToId s r).data = s.data ++ (" -> " : String).data ++ r.data := rfl
  rw [h1, List.append_assoc]
  rfl

theorem fromToId_inj {s₁ r₁ s₂ r₂ : String} (h₁ : GtFree s₁) (h₂ : GtFree s₂)
    (h : fromToId s₁ r₁ = fromToId s₂ r₂) : s₁ = s₂ ∧ r₁ = r₂ := by
  have hd := congrArg String.data h
  rw [fromToId_data, fromToId_data] at hd
  obtain ⟨hs, ht⟩ := sep_append_inj h₁ h₂ hd
  exact ⟨String.ext hs, String.ext (by simpa using ht)⟩

theorem fromToId_left_cancel {s r₁ r₂ : String} (h : fromToId s r₁ = fromToId s r₂) :
    r₁ = r₂ := by
  have hd := congrArg String.data h
  rw [fromToId_data, fromToId_data] at hd
  exact String.ext (by simpa using List.append_cancel_left hd)

theorem fromToId_assoc (s r a : String) :
    fromToId (fromToId s r) a = fromToId s (fromToId r a) := by
  refine String.ext ?_
  rw [fromToId_data, fromToId_data, fromToId_data, fromToId_data]
  simp

/-! ### Handle computation -/

namespace Vec2

theorem sub_eq_zero_iff (a b : Vec2) : a.sub b = ⟨0, 0⟩ ↔ a = b := by
  cases a; cases b
  simp [sub, Vec2.mk.injEq, sub_eq_zero]

theorem magnitude_nonneg (a : Vec2) : 0 ≤ a.magnitude := Real.sqrt_nonneg _

theorem magnitude_mul (a : Vec2) (k : ℝ) : (a.mul k).magnitude = |k| * a.magnitude := by
  unfold magnitude mul
  rw [show (a.x * k) ^ 2 + (a.y * k) ^ 2 = k ^ 2 * (a.x ^ 2 + a.y ^ 2) by ring,
    Real.sqrt_mul (sq_nonneg k), Real.sqrt_sq_eq_abs]

theorem normalize_eq_mul (a : Vec2) (h : a.magnitude ≠ 0) :
    a.normalize = a.mul a.magnitude⁻¹ := by
  unfold normalize mul
  rw [if_neg h]
  simp [div_eq_mul_inv]

theorem magnitude_normalize (a : Vec2) (h : a ≠ ⟨0, 0⟩) : a.normalize.magnitude = 1 := by
  have hm : a.magnitude ≠ 0 := fun hz => h ((magnitude_eq_zero_iff a).mp hz)
  rw [normalize_eq_mul a hm, magnitude_mul, abs_inv, abs_of_nonneg (magnitude_nonneg a)]
  field_simp

end Vec2

theorem exists_three_cons {ps : List Vec2} (h : 3 ≤ ps.length) :
    ∃ a b c rest, ps = a :: b :: c :: rest := by
  match ps with
  | a :: b :: c :: rest => exact ⟨a, b, c, rest, rfl⟩
  | [] => simp at h
  | [_] => simp at h
  | [_, _] => simp at h

theorem arrowHandleFromPoints_of_short (W : ℝ) (points : List Vec2)
    (h : points.length < 3) : arrowHandleFromPoints W points = none := by
  unfold arrowHandleFromPoints
  rw [dif_pos h]

theorem arrowHandleFromPoints_cons (W : ℝ) (a b c : Vec2) (rest : List Vec2) :
    arrowHandleFromPoints W (a :: b :: c :: rest) =
      if (c.sub b).normalize.isZero then none
      else
        some ((b.linterp c 0.5).sub ((c.sub b).normalize.mul (W / 2)),
              (b.linterp c 0.5).add ((c.sub b).normalize.mul (W / 2))) := by
  unfold arrowHandleFromPoints
  rw [dif_neg (by simp)]
  rfl

/-- C3: `arrowHandleFromPoints` returns `none` exactly on degenerate paths:
every path shorter than 3 points yields `none`, and a path of at least 3
points yields `none` precisely when `points[1]` and `points[2]` coincide;
otherwise it yields `some` handle. -/
theorem arrowHandle_none_characterization (W : ℝ) (points : List Vec2) :
    arrowHandleFromPoints W points = none ↔
      points.length < 3 ∨ points[1]? = points[2]? := by
  by_cases h : points.length < 3
  · simp [arrowHandleFromPoints_of_short W points h, h]
  · push_neg at h
    obtain ⟨a, b, c, rest, rfl⟩ := exists_three_cons h
    rw [arrowHandleFromPoints_cons]
    have hyp : (c.sub b).normalize.isZero ↔ b = c := by
      rw [Vec2.normalize_isZero_iff, Vec2.sub_eq_zero_iff]
      exact ⟨fun hh => hh.symm, fun hh => hh.symm⟩
    by_cases hbc : b = c
    · subst hbc
      simp [hyp.mpr rfl]
    · have hnz : ¬ (c.sub b).normalize.isZero := fun hh => hbc (hyp.mp hh)
      simp [hnz, hbc]

/-- C2: on a path of at least 3 points whose `points[1]` and `points[2]`
differ, the handle is the segment of length `arrowHandleWidth` centered on
the midpoint of `points[1]` and `points[2]`, directed along the unit vector
from `points[1]` to `points[2]` (so `handleFrom + handleTo` is
`points[1] + points[2]`, `handleTo - handleFrom` is that unit vector scaled
by the width, and in particular for `points[1]=(0,0)`, `points[2]=(10,0)`
the handle runs from `(5-W/2, 0)` to `(5+W/2, 0)`). -/
theorem arrowHandle_segment_spec (W : ℝ) (points : List Vec2) (h3 : 3 ≤ points.length)
    (hne : points.get ⟨1, by omega⟩ ≠ points.get ⟨2, by omega⟩) :
    ∃ hFrom hTo : Vec2,
      arrowHandleFromPoints W points = some (hFrom, hTo) ∧
      hFrom.add hTo = (points.get ⟨1, by omega⟩).add (points.get ⟨2, by omega⟩) ∧
      hTo.sub hFrom =
        ((points.get ⟨2, by omega⟩).sub (points.get ⟨1, by omega⟩)).normalize.mul W ∧
      ((points.get ⟨2, by omega⟩).sub (points.get ⟨1, by omega⟩)).normalize.magnitude = 1 ∧
      (0 ≤ W → hFrom.distance hTo = W) ∧
      (points.get ⟨1, by omega⟩ = ⟨0, 0⟩ → points.get ⟨2, by omega⟩ = ⟨10, 0⟩ →
        hFrom = ⟨5 - W / 2, 0⟩ ∧ hTo = ⟨5 + W / 2, 0⟩) := by
  obtain ⟨a, b, c, rest, rfl⟩ := exists_three_cons h3
  have hb : (a :: b :: c :: rest).get ⟨1, by omega⟩ = b := rfl
  have hc : (a :: b :: c :: rest).get ⟨2, by omega⟩ = c := rfl
  rw [hb, hc] at hne ⊢
  have hcb : c.sub b ≠ ⟨0, 0⟩ := fun hz => hne ((Vec2.sub_eq_zero_iff c b).mp hz).symm
  have hnz : ¬ (c.sub b).normalize.isZero := fun hz =>
    hcb ((Vec2.normalize_isZero_iff (c.sub b)).mp hz)
  rw [arrowHandleFromPoints_cons, if_neg hnz]
  refine ⟨_, _, rfl, ?_, ?_, ?_, ?_, ?_⟩
  · apply Vec2.ext_xy <;>
      simp [Vec2.add, Vec2.sub, Vec2.mul, Vec2.linterp] <;> ring
  · apply Vec2.ext_xy <;>
      simp [Vec2.add, Vec2.sub, Vec2.mul, Vec2.linterp] <;> ring
  · exact Vec2.magnitude_normalize (c.sub b) hcb
  · intro hW
    have hseg : ((b.linterp c 0.5).add ((c.sub b).normalize.mul (W / 2))).sub
        ((b.linterp c 0.5).sub ((c.sub b).normalize.mul (W / 2)))
        = (c.sub b).normalize.mul W := by
      apply Vec2.ext_xy <;>
        simp [Vec2.add, Vec2.sub, Vec2.mul, Vec2.linterp] <;> ring
    rw [Vec2.distance, hseg, Vec2.magnitude_mul,
      Vec2.magnitude_normalize (c.sub b) hcb, abs_of_nonneg hW]
    ring
  · intro h1 h2
    subst h1; subst h2
    have hmag : (Vec2.sub ⟨10, 0⟩ ⟨0, 0⟩).magnitude = 10 := by
      simp only [Vec2.sub, Vec2.magnitude]
      rw [show ((10:ℝ) - 0) ^ 2 + ((0:ℝ) - 0) ^ 2 = 10 ^ 2 by norm_num,
        Real.sqrt_sq (by norm_num)]
    have hnorm : (Vec2.sub ⟨10, 0⟩ ⟨0, 0⟩).normalize = ⟨1, 0⟩ := by
      rw [Vec2.normalize, if_neg (by rw [hmag]; norm_num)]
      rw [hmag]
      apply Vec2.ext_xy
      all_goals simp [Vec2.sub]
    constructor <;>
      · rw [hnorm]
        apply Vec2.ext_xy
        all_goals simp [Vec2.add, Vec2.sub, Vec2.mul, Vec2.linterp]
        all_goals ring

/-- Witness for C2 at `W = 2`, `points = [(7,7), (0,0), (10,0)]`: the handle
runs from `(4, 0)` to `(6, 0)`. -/
theorem arrowHandle_segment_spec_witness :
    ∃ hFrom hTo : Vec2,
      arrowHandleFromPoints 2 [⟨7, 7⟩, ⟨0, 0⟩, ⟨10, 0⟩] = some (hFrom, hTo) ∧
      hFrom.add hTo = Vec2.add ⟨0, 0⟩ ⟨10, 0⟩ ∧
      hTo.sub hFrom = (Vec2.sub ⟨10, 0⟩ ⟨0, 0⟩).normalize.mul 2 ∧
      (Vec2.sub ⟨10, 0⟩ ⟨0, 0⟩).normalize.magnitude = 1 ∧
      ((0 : ℝ) ≤ 2 → Vec2.distance hFrom hTo = 2) ∧
      ((⟨0, 0⟩ : Vec2) = ⟨0, 0⟩ → (⟨10, 0⟩ : Vec2) = ⟨10, 0⟩ →
        hFrom = ⟨5 - 2 / 2, 0⟩ ∧ hTo = ⟨5 + 2 / 2, 0⟩) :=
  arrowHandle_segment_spec 2 [⟨7, 7⟩, ⟨0, 0⟩, ⟨10, 0⟩] (by norm_num)
    (by
      show (⟨0, 0⟩ : Vec2) ≠ (⟨10, 0⟩ : Vec2)
      intro hck
      have hx := congrArg Vec2.x hck
      norm_num at hx)

/-- C10: the handle computation reads only `points[1]` and `points[2]`: two
paths of length ≥ 3 that agree at indices 1 and 2 get identical handles,
whatever their first point or later points are; being a pure function of the
path, the computation is in particular deterministic. -/
theorem arrowHandle_depends_only_on_middle (W : ℝ) (ps qs : List Vec2)
    (hp : 3 ≤ ps.length) (hq : 3 ≤ qs.length)
    (h1 : ps.get ⟨1, by omega⟩ = qs.get ⟨1, by omega⟩)
    (h2 : ps.get ⟨2, by omega⟩ = qs.get ⟨2, by omega⟩) :
    arrowHandleFromPoints W ps = arrowHandleFromPoints W qs := by
  obtain ⟨a, b, c, rest, rfl⟩ := exists_three_cons hp
  obtain ⟨a', b', c', rest', rfl⟩ := exists_three_cons hq
  have hb : b = b' := h1
  have hc : c = c' := h2
  rw [arrowHandleFromPoints_cons, arrowHandleFromPoints_cons, hb, hc]

/-- Witness for C10: a 3-point and a 4-point path agreeing at indices 1 and 2
(but nowhere else) get the same handle. -/
theorem arrowHandle_depends_only_on_middle_witness :
    arrowHandleFromPoints 1 [⟨0, 0⟩, ⟨1, 2⟩, ⟨3, 4⟩] =
      arrowHandleFromPoints 1 [⟨9, 9⟩, ⟨1, 2⟩, ⟨3, 4⟩, ⟨5, 5⟩] :=
  arrowHandle_depends_only_on_middle 1 _ _ (by norm_num) (by norm_num) rfl rfl

/-- C6: `AccessPoint` renders the port element iff the L4 protocol is neither
ICMPv4 nor ICMPv6 (equivalently, the port is omitted iff it is one of the
two ICMP variants). -/
theorem accessPoint_port_iff (props : AccessPointProps) :
    (accessPointRender props).portElem = some props.port ↔
      props.l4Protocol ≠ IPProtocol.ICMPv4 ∧ props.l4Protocol ≠ IPProtocol.ICMPv6 := by
  unfold accessPointRender showPort
  by_cases h4 : props.l4Protocol = IPProtocol.ICMPv4 <;>
    by_cases h6 : props.l4Protocol = IPProtocol.ICMPv6 <;>
      simp [h4, h6]

/-- C7: `AccessPoint` renders the L7 protocol label iff `l7Protocol` is
present and is not the `Unknown` sentinel. -/
theorem accessPoint_l7_iff (props : AccessPointProps) :
    (accessPointRender props).l7Elem ≠ none ↔
      props.l7Protocol ≠ none ∧ props.l7Protocol ≠ some L7Kind.Unknown := by
  unfold accessPointRender showL7Protocol
  match hl : props.l7Protocol with
  | none => simp [hl]
  | some k =>
    by_cases hk : k = L7Kind.Unknown <;> simp [hl, hk]

/-- C5: every (sender, receiver, ConnectorArrow) pair of the input
contributes an arrow entry keyed `"senderId -> receiverId"` whose point
sequence is the sender's start point prepended to the connector arrow's
waypoints and whose handle is computed from that full sequence, together
with a connector entry under the same key at the connector's position. -/
theorem flatten_arrow_and_connector_entry (W : ℝ)
    (arrowsMap : List (String × SenderArrows)) (apPositions : String → Option Vec2)
    (s : String × SenderArrows) (r : String × ConnectorArrow)
    (hs : s ∈ arrowsMap) (hr : r ∈ s.2.arrows) :
    (fromToId s.1 r.1,
      ArrowData.mk (s.2.startPoint :: r.2.points)
        (arrowHandleFromPoints W (s.2.startPoint :: r.2.points)))
      ∈ (manageArrowsFlatten W arrowsMap apPositions).arrows ∧
    (fromToId s.1 r.1, r.2.connector.position)
      ∈ (manageArrowsFlatten W arrowsMap apPositions).connectors := by
  constructor
  · simp only [manageArrowsFlatten, List.mem_flatMap]
    exact ⟨s, hs, List.mem_map.mpr ⟨r, hr, rfl⟩⟩
  · simp only [manageArrowsFlatten, List.mem_flatMap]
    exact ⟨s, hs, List.mem_map.mpr ⟨r, hr, rfl⟩⟩

/-- Witness for C5 on a one-sender, one-receiver input. -/
theorem flatten_arrow_and_connector_entry_witness :
    (fromToId "s" "r",
      ArrowData.mk ((⟨0, 0⟩ : Vec2) :: [⟨1, 1⟩])
        (arrowHandleFromPoints 1 ((⟨0, 0⟩ : Vec2) :: [⟨1, 1⟩])))
      ∈ (manageArrowsFlatten 1 [("s", ⟨⟨0, 0⟩, [("r", ⟨[⟨1, 1⟩], ⟨⟨2, 2⟩, []⟩⟩)]⟩)]
          (fun _ => none)).arrows ∧
    (fromToId "s" "r", (⟨2, 2⟩ : Vec2))
      ∈ (manageArrowsFlatten 1 [("s", ⟨⟨0, 0⟩, [("r", ⟨[⟨1, 1⟩], ⟨⟨2, 2⟩, []⟩⟩)]⟩)]
          (fun _ => none)).connectors :=
  flatten_arrow_and_connector_entry 1
    [("s", ⟨⟨0, 0⟩, [("r", ⟨[⟨1, 1⟩], ⟨⟨2, 2⟩, []⟩⟩)]⟩)] (fun _ => none)
    ("s", ⟨⟨0, 0⟩, [("r", ⟨[⟨1, 1⟩], ⟨⟨2, 2⟩, []⟩⟩)]⟩)
    ("r", ⟨[⟨1, 1⟩], ⟨⟨2, 2⟩, []⟩⟩)
    (List.mem_singleton_self _) (List.mem_singleton_self _)

/-- C4: flattening a map with sender "S" → receiver "R" whose connector fans
out to access point "A": when "A" has a known position exactly one feet
entry, keyed "S -> R -> A", is produced, connecting the connector position
to "A"'s position; when "A" has no known position, no feet entry is
produced and the computation still succeeds (no error path exists). -/
theorem flatten_feet_entry (W : ℝ) (startPoint cpos : Vec2) (waypoints : List Vec2)
    (apPositions : String → Option Vec2) :
    (∀ q, apPositions "A" = some q →
      (manageArrowsFlatten W
          [("S", ⟨startPoint, [("R", ⟨waypoints, ⟨cpos, ["A"]⟩⟩)]⟩)] apPositions).feets
        = [("S -> R -> A", (cpos, q))]) ∧
    (apPositions "A" = none →
      (manageArrowsFlatten W
          [("S", ⟨startPoint, [("R", ⟨waypoints, ⟨cpos, ["A"]⟩⟩)]⟩)] apPositions).feets
        = []) := by
  have hkey : fromToId (fromToId "S" "R") "A" = "S -> R -> A" := by decide
  constructor
  · intro q hq
    simp [manageArrowsFlatten, hq, hkey]
  · intro hq
    simp [manageArrowsFlatten, hq]

/-- Witness for C4: with "A" known to be at (3,4) exactly the one keyed feet
entry appears; with an empty position map, none does. -/
theorem flatten_feet_entry_witness :
    (manageArrowsFlatten 1 [("S", ⟨⟨0, 0⟩, [("R", ⟨[], ⟨⟨1, 2⟩, ["A"]⟩⟩)]⟩)]
        (fun a => if a = "A" then some ⟨3, 4⟩ else none)).feets
      = [("S -> R -> A", (⟨1, 2⟩, ⟨3, 4⟩))] ∧
    (manageArrowsFlatten 1 [("S", ⟨⟨0, 0⟩, [("R", ⟨[], ⟨⟨1, 2⟩, ["A"]⟩⟩)]⟩)]
        (fun _ => none)).feets = [] :=
  ⟨(flatten_feet_entry 1 ⟨0, 0⟩ ⟨1, 2⟩ [] _).1 ⟨3, 4⟩ (by simp),
   (flatten_feet_entry 1 ⟨0, 0⟩ ⟨1, 2⟩ [] _).2 rfl⟩

theorem mem_afterJoin (previous next : List String) (k : String) :
    k ∈ afterJoin previous next ↔ k ∈ next := by
  simp only [afterJoin, keyedJoin, List.mem_append, List.mem_filter]
  by_cases h : previous.contains k <;> simp [h] <;> tauto

/-- C8: re-running the flatten+reconcile pass with unchanged inputs leaves
the key set of each of the four rendered groups identical to what the
previous pass produced, whatever scene state the first pass started from. -/
theorem pass_idempotent (W : ℝ) (arrowsMap : List (String × SenderArrows))
    (apPositions : String → Option Vec2) (scene : SceneKeys) (k : String) :
    (k ∈ (manageArrowsPass W arrowsMap apPositions
            (manageArrowsPass W arrowsMap apPositions scene)).startPlates ↔
      k ∈ (manageArrowsPass W arrowsMap apPositions scene).startPlates) ∧
    (k ∈ (manageArrowsPass W arrowsMap apPositions
            (manageArrowsPass W arrowsMap apPositions scene)).arrows ↔
      k ∈ (manageArrowsPass W arrowsMap apPositions scene).arrows) ∧
    (k ∈ (manageArrowsPass W arrowsMap apPositions
            (manageArrowsPass W arrowsMap apPositions scene)).connectors ↔
      k ∈ (manageArrowsPass W arrowsMap apPositions scene).connectors) ∧
    (k ∈ (manageArrowsPass W arrowsMap apPositions
            (manageArrowsPass W arrowsMap apPositions scene)).feets ↔
      k ∈ (manageArrowsPass W arrowsMap apPositions scene).feets) := by
  refine ⟨?_, ?_, ?_, ?_⟩ <;>
    simp only [manageArrowsPass, mem_afterJoin]

theorem keysOf_startPlates (W : ℝ) (a : List (String × SenderArrows))
    (ap : String → Option Vec2) :
    keysOf (manageArrowsFlatten W a ap).startPlates = keysOf a := by
  simp [manageArrowsFlatten, keysOf, List.map_map, Function.comp]

theorem keysOf_arrows (W : ℝ) (a : List (String × SenderArrows))
    (ap : String → Option Vec2) :
    keysOf (manageArrowsFlatten W a ap).arrows
      = a.flatMap fun s => s.2.arrows.map fun r => fromToId s.1 r.1 := by
  simp only [manageArrowsFlatten, keysOf, List.map_flatMap, List.map_map]
  rfl

theorem keysOf_connectors (W : ℝ) (a : List (String × SenderArrows))
    (ap : String → Option Vec2) :
    keysOf (manageArrowsFlatten W a ap).connectors
      = a.flatMap fun s => s.2.arrows.map fun r => fromToId s.1 r.1 := by
  simp only [manageArrowsFlatten, keysOf, List.map_flatMap, List.map_map]
  rfl

theorem keysOf_feets (W : ℝ) (a : List (String × SenderArrows))
    (ap : String → Option Vec2) :
    keysOf (manageArrowsFlatten W a ap).feets
      = a.flatMap fun s => s.2.arrows.flatMap fun r =>
          r.2.connector.apIds.filterMap fun apId =>
            match ap apId with
            | none => none
            | some _ => some (fromToId (fromToId s.1 r.1) apId) := by
  simp only [manageArrowsFlatten, keysOf, List.map_flatMap, List.map_filterMap]
  congr 1
  funext s
  congr 1
  funext r
  congr 1
  funext apId
  cases ap apId <;> rfl

/-- C1 (amended): on a well-formed input (unique `Map` keys at both levels,
duplicate-free fan-out sets) whose sender and receiver ids avoid the
character `'>'`, every key of each of the four flattened collections occurs
at most once within its collection. -/
theorem flatten_keys_nodup (W : ℝ) (a : List (String × SenderArrows))
    (ap : String → Option Vec2) (hwf : WellFormedInput a) (hgt : GtFreeIds a) :
    (keysOf (manageArrowsFlatten W a ap).startPlates).Nodup ∧
    (keysOf (manageArrowsFlatten W a ap).arrows).Nodup ∧
    (keysOf (manageArrowsFlatten W a ap).connectors).Nodup ∧
    (keysOf (manageArrowsFlatten W a ap).feets).Nodup := by
  obtain ⟨hmap, hinner⟩ := hwf
  have hpw : a.Pairwise fun s t => s.1 ≠ t.1 := List.pairwise_map.mp hmap
  have harrows : (a.flatMap fun s => s.2.arrows.map fun r => fromToId s.1 r.1).Nodup := by
    rw [List.nodup_flatMap]
    refine ⟨?_, ?_⟩
    · intro s hs
      have hmm : (s.2.arrows.map fun r => fromToId s.1 r.1)
          = (s.2.arrows.map Prod.fst).map (fromToId s.1) := by
        rw [List.map_map]; rfl
      rw [hmm]
      exact ((hinner s hs).1).map (fun r₁ r₂ h => fromToId_left_cancel h)
    · refine List.Pairwise.imp_of_mem ?_ hpw
      intro s t hs ht hne k hk1 hk2
      obtain ⟨r1, hr1, hfeq1⟩ := List.mem_map.mp hk1
      obtain ⟨r2, hr2, hfeq2⟩ := List.mem_map.mp hk2
      exact hne (fromToId_inj (hgt s hs).1 (hgt t ht).1 (hfeq1.trans hfeq2.symm)).1
  have hmem : ∀ (sid rid apId k : String),
      (match ap apId with
        | none => none
        | some _ => some (fromToId (fromToId sid rid) apId)) = some k →
      k = fromToId (fromToId sid rid) apId := by
    intro sid rid apId k h
    rcases hq : ap apId with _ | q
    · simp [hq] at h
    · simp [hq] at h
      exact h.symm
  have hfeets : (a.flatMap fun s => s.2.arrows.flatMap fun r =>
      r.2.connector.apIds.filterMap fun apId =>
        match ap apId with
        | none => none
        | some _ => some (fromToId (fromToId s.1 r.1) apId)).Nodup := by
    rw [List.nodup_flatMap]
    refine ⟨?_, ?_⟩
    · intro s hs
      rw [List.nodup_flatMap]
      refine ⟨?_, ?_⟩
      · intro r hr
        refine List.Nodup.filterMap ?_ ((hinner s hs).2 r hr)
        intro a1 a2 b hb1 hb2
        have e1 := hmem s.1 r.1 a1 b (Option.mem_def.mp hb1)
        have e2 := hmem s.1 r.1 a2 b (Option.mem_def.mp hb2)
        exact fromToId_left_cancel (e1.symm.trans e2)
      · have hpwr : s.2.arrows.Pairwise fun r₁ r₂ => r₁.1 ≠ r₂.1 :=
          List.pairwise_map.mp (hinner s hs).1
        refine List.Pairwise.imp_of_mem ?_ hpwr
        intro r₁ r₂ hr₁ hr₂ hne k hk1 hk2
        obtain ⟨a1, ha1, hb1⟩ := List.mem_filterMap.mp hk1
        obtain ⟨a2, ha2, hb2⟩ := List.mem_filterMap.mp hk2
        have e1 := hmem s.1 r₁.1 a1 k hb1
        have e2 := hmem s.1 r₂.1 a2 k hb2
        rw [fromToId_assoc] at e1 e2
        have hmid := fromToId_left_cancel (e1.symm.trans e2)
        exact hne (fromToId_inj ((hgt s hs).2 r₁ hr₁) ((hgt s hs).2 r₂ hr₂) hmid).1
    · refine List.Pairwise.imp_of_mem ?_ hpw
      intro s t hs ht hne k hk1 hk2
      obtain ⟨r1, hr1, hk1m⟩ := List.mem_flatMap.mp hk1
      obtain ⟨a1, ha1, hb1⟩ := List.mem_filterMap.mp hk1m
      obtain ⟨r2, hr2, hk2m⟩ := List.mem_flatMap.mp hk2
      obtain ⟨a2, ha2, hb2⟩ := List.mem_filterMap.mp hk2m
      have e1 := hmem s.1 r1.1 a1 k hb1
      have e2 := hmem t.1 r2.1 a2 k hb2
      rw [fromToId_assoc] at e1 e2
      exact hne (fromToId_inj (hgt s hs).1 (hgt t ht).1 (e1.symm.trans e2)).1
  refine ⟨?_, ?_, ?_, ?_⟩
  · rw [keysOf_startPlates]; exact hmap
  · rw [keysOf_arrows]; exact harrows
  · rw [keysOf_connectors]; exact harrows
  · rw [keysOf_feets]; exact hfeets

instance WellFormedInput.instDecidable (a : List (String × SenderArrows)) :
    Decidable (WellFormedInput a) :=
  inferInstanceAs (Decidable ((keysOf a).Nodup ∧
    ∀ s ∈ a, (keysOf s.2.arrows).Nodup ∧ ∀ r ∈ s.2.arrows, r.2.connector.apIds.Nodup))

instance GtFree.instDecidable (s : String) : Decidable (GtFree s) :=
  inferInstanceAs (Decidable ('>' ∉ s.data))

instance GtFreeIds.instDecidable (a : List (String × SenderArrows)) :
    Decidable (GtFreeIds a) :=
  inferInstanceAs (Decidable (∀ s ∈ a, GtFree s.1 ∧ ∀ r ∈ s.2.arrows, GtFree r.1))

/-- A small well-formed two-sender input for the key-uniqueness witness. -/
noncomputable def sampleInput : List (String × SenderArrows) :=
  [("a", ⟨⟨0, 0⟩, [("b", ⟨[⟨1, 0⟩], ⟨⟨2, 0⟩, ["p", "q"]⟩⟩),
                   ("c", ⟨[], ⟨⟨3, 0⟩, ["p"]⟩⟩)]⟩),
   ("b", ⟨⟨4, 0⟩, [("c", ⟨[], ⟨⟨5, 0⟩, ["q"]⟩⟩)]⟩)]

/-- Access-point positions for `sampleInput`: "p" and "q" are laid out. -/
noncomputable def sampleAp : String → Option Vec2 := fun apId =>
  if apId = "p" then some ⟨6, 0⟩ else if apId = "q" then some ⟨7, 0⟩ else none

/-- Witness for C1 on `sampleInput`: all four key columns are
duplicate-free. -/
theorem flatten_keys_nodup_witness :
    (keysOf (manageArrowsFlatten 1 sampleInput sampleAp).startPlates).Nodup ∧
    (keysOf (manageArrowsFlatten 1 sampleInput sampleAp).arrows).Nodup ∧
    (keysOf (manageArrowsFlatten 1 sampleInput sampleAp).connectors).Nodup ∧
    (keysOf (manageArrowsFlatten 1 sampleInput sampleAp).feets).Nodup :=
  flatten_keys_nodup 1 sampleInput sampleAp (by decide) (by decide)

/-- The input on which C1, as stated for every input, fails: the sender ids
"a -> b" and "a" are distinct map keys, yet with receivers "c" and
"b -> c" respectively they both produce the arrow key "a -> b -> c". -/
noncomputable def collisionInput : List (String × SenderArrows) :=
  [("a -> b", ⟨⟨0, 0⟩, [("c", ⟨[], ⟨⟨0, 0⟩, []⟩⟩)]⟩),
   ("a", ⟨⟨0, 0⟩, [("b -> c", ⟨[], ⟨⟨0, 0⟩, []⟩⟩)]⟩)]

/-- Counterexample to C1 as stated: a well-formed input pair on which the
arrows collection repeats a key (so does the connectors collection, which
carries the same key column). -/
theorem flatten_keys_collision :
    WellFormedInput collisionInput ∧
    ¬ (keysOf (manageArrowsFlatten 0 collisionInput (fun _ => none)).arrows).Nodup :=
  ⟨by decide, by decide⟩

/-- Removal of a sender from the arrows map (`Map.delete`), modelled on the
association list. -/
def removeSender (a : List (String × SenderArrows)) (sid : String) :
    List (String × SenderArrows) :=
  a.filter fun s => s.1 != sid

theorem feet_key_eq {ap : String → Option Vec2} {sid rid apId k : String}
    (h : (match ap apId with
          | none => none
          | some _ => some (fromToId (fromToId sid rid) apId)) = some k) :
    k = fromToId (fromToId sid rid) apId := by
  rcases hq : ap apId with _ | q
  · simp [hq] at h
  · simp [hq] at h
    exact h.symm

theorem mem_removed_iff (previous next : List String) (k : String) :
    k ∈ (keyedJoin previous next).removed ↔ k ∈ previous ∧ k ∉ next := by
  simp [keyedJoin, List.mem_filter]

/-- C9 (amended): in a map whose sender ids avoid `'>'`, removing a present
sender `sid` leaves the next flatten with no start-plate keyed `sid` and no
arrow, connector or feet key derived from `sid`; consequently every such key
the previous pass produced lands in the removed (exit) partition of its
keyed join. -/
theorem removal_removes_sender_keys (W : ℝ) (a : List (String × SenderArrows))
    (ap : String → Option Vec2) (sid : String)
    (hmem : sid ∈ keysOf a) (hgt : ∀ s ∈ a, GtFree s.1) :
    (sid ∉ keysOf (manageArrowsFlatten W (removeSender a sid) ap).startPlates) ∧
    (∀ r, fromToId sid r ∉ keysOf (manageArrowsFlatten W (removeSender a sid) ap).arrows) ∧
    (∀ r, fromToId sid r ∉ keysOf (manageArrowsFlatten W (removeSender a sid) ap).connectors) ∧
    (∀ r apId, fromToId (fromToId sid r) apId ∉
      keysOf (manageArrowsFlatten W (removeSender a sid) ap).feets) ∧
    (sid ∈ keysOf (manageArrowsFlatten W a ap).startPlates →
      sid ∈ (keyedJoin (keysOf (manageArrowsFlatten W a ap).startPlates)
        (keysOf (manageArrowsFlatten W (removeSender a sid) ap).startPlates)).removed) ∧
    (∀ r, fromToId sid r ∈ keysOf (manageArrowsFlatten W a ap).arrows →
      fromToId sid r ∈ (keyedJoin (keysOf (manageArrowsFlatten W a ap).arrows)
        (keysOf (manageArrowsFlatten W (removeSender a sid) ap).arrows)).removed) ∧
    (∀ r, fromToId sid r ∈ keysOf (manageArrowsFlatten W a ap).connectors →
      fromToId sid r ∈ (keyedJoin (keysOf (manageArrowsFlatten W a ap).connectors)
        (keysOf (manageArrowsFlatten W (removeSender a sid) ap).connectors)).removed) ∧
    (∀ r apId, fromToId (fromToId sid r) apId ∈ keysOf (manageArrowsFlatten W a ap).feets →
      fromToId (fromToId sid r) apId ∈
        (keyedJoin (keysOf (manageArrowsFlatten W a ap).feets)
          (keysOf (manageArrowsFlatten W (removeSender a sid) ap).feets)).removed) := by
  have hsid : GtFree sid := by
    obtain ⟨s, hs, hfst⟩ := List.mem_map.mp hmem
    exact hfst ▸ hgt s hs
  have hfilter : ∀ s ∈ removeSender a sid, s ∈ a ∧ s.1 ≠ sid := by
    intro s hs
    have := List.mem_filter.mp hs
    exact ⟨this.1, by simpa using this.2⟩
  have h1 : sid ∉ keysOf (manageArrowsFlatten W (removeSender a sid) ap).startPlates := by
    rw [keysOf_startPlates]
    intro hk
    obtain ⟨s, hs, hfst⟩ := List.mem_map.mp hk
    exact (hfilter s hs).2 hfst
  have h2 : ∀ r, fromToId sid r ∉
      keysOf (manageArrowsFlatten W (removeSender a sid) ap).arrows := by
    intro r hk
    rw [keysOf_arrows] at hk
    obtain ⟨s, hs, hk2⟩ := List.mem_flatMap.mp hk
    obtain ⟨r2, hr2, hfeq⟩ := List.mem_map.mp hk2
    exact (hfilter s hs).2 (fromToId_inj (hgt s (hfilter s hs).1) hsid hfeq).1
  have h3 : ∀ r, fromToId sid r ∉
      keysOf (manageArrowsFlatten W (removeSender a sid) ap).connectors := by
    intro r
    rw [keysOf_connectors, ← keysOf_arrows W (removeSender a sid) ap]
    exact h2 r
  have h4 : ∀ r apId, fromToId (fromToId sid r) apId ∉
      keysOf (manageArrowsFlatten W (removeSender a sid) ap).feets := by
    intro r apId hk
    rw [keysOf_feets] at hk
    obtain ⟨s, hs, hk2⟩ := List.mem_flatMap.mp hk
    obtain ⟨r2, hr2, hk3⟩ := List.mem_flatMap.mp hk2
    obtain ⟨a2, ha2, hb2⟩ := List.mem_filterMap.mp hk3
    have he := feet_key_eq hb2
    rw [fromToId_assoc, fromToId_assoc] at he
    exact (hfilter s hs).2 (fromToId_inj hsid (hgt s (hfilter s hs).1) he).1.symm
  refine ⟨h1, h2, h3, h4, ?_, ?_, ?_, ?_⟩
  · intro hp
    exact (mem_removed_iff _ _ _).mpr ⟨hp, h1⟩
  · intro r hp
    exact (mem_removed_iff _ _ _).mpr ⟨hp, h2 r⟩
  · intro r hp
    exact (mem_removed_iff _ _ _).mpr ⟨hp, h3 r⟩
  · intro r apId hp
    exact (mem_removed_iff _ _ _).mpr ⟨hp, h4 r apId⟩

/-- Witness for C9 on `sampleInput` with sender "a" removed. -/
theorem removal_removes_sender_keys_witness :
    ("a" ∉ keysOf (manageArrowsFlatten 1 (removeSender sampleInput "a") sampleAp).startPlates) ∧
    (∀ r, fromToId "a" r ∉
      keysOf (manageArrowsFlatten 1 (removeSender sampleInput "a") sampleAp).arrows) ∧
    (∀ r, fromToId "a" r ∉
      keysOf (manageArrowsFlatten 1 (removeSender sampleInput "a") sampleAp).connectors) ∧
    (∀ r apId, fromToId (fromToId "a" r) apId ∉
      keysOf (manageArrowsFlatten 1 (removeSender sampleInput "a") sampleAp).feets) ∧
    ("a" ∈ keysOf (manageArrowsFlatten 1 sampleInput sampleAp).startPlates →
      "a" ∈ (keyedJoin (keysOf (manageArrowsFlatten 1 sampleInput sampleAp).startPlates)
        (keysOf (manageArrowsFlatten 1 (removeSender sampleInput "a") sampleAp).startPlates)).removed) ∧
    (∀ r, fromToId "a" r ∈ keysOf (manageArrowsFlatten 1 sampleInput sampleAp).arrows →
      fromToId "a" r ∈ (keyedJoin (keysOf (manageArrowsFlatten 1 sampleInput sampleAp).arrows)
        (keysOf (manageArrowsFlatten 1 (removeSender sampleInput "a") sampleAp).arrows)).removed) ∧
    (∀ r, fromToId "a" r ∈ keysOf (manageArrowsFlatten 1 sampleInput sampleAp).connectors →
      fromToId "a" r ∈ (keyedJoin (keysOf (manageArrowsFlatten 1 sampleInput sampleAp).connectors)
        (keysOf (manageArrowsFlatten 1 (removeSender sampleInput "a") sampleAp).connectors)).removed) ∧
    (∀ r apId, fromToId (fromToId "a" r) apId ∈
        keysOf (manageArrowsFlatten 1 sampleInput sampleAp).feets →
      fromToId (fromToId "a" r) apId ∈
        (keyedJoin (keysOf (manageArrowsFlatten 1 sampleInput sampleAp).feets)
          (keysOf (manageArrowsFlatten 1 (removeSender sampleInput "a") sampleAp).feets)).removed) :=
  removal_removes_sender_keys 1 sampleInput sampleAp "a" (by decide) (by decide)

/-- The input on which C9, as stated for every input, fails: senders "a"
(with receiver "b -> c") and "a -> b" (with receiver "c") both produce the
arrow key "a -> b -> c". -/
noncomputable def collisionInput9 : List (String × SenderArrows) :=
  [("a", ⟨⟨0, 0⟩, [("b -> c", ⟨[], ⟨⟨0, 0⟩, []⟩⟩)]⟩),
   ("a -> b", ⟨⟨0, 0⟩, [("c", ⟨[], ⟨⟨0, 0⟩, []⟩⟩)]⟩)]

/-- Counterexample to C9 as stated: on `collisionInput9`, after removing
sender "a" the arrow key "a -> b -> c" that sender "a" previously produced
is still produced (by sender "a -> b"), so it is not removed by the exit
partition of the keyed join. -/
theorem removal_leaves_sender_key :
    WellFormedInput collisionInput9 ∧
    "a" ∈ keysOf collisionInput9 ∧
    fromToId "a" "b -> c" ∈
      keysOf (manageArrowsFlatten 0 collisionInput9 (fun _ => none)).arrows ∧
    fromToId "a" "b -> c" ∈
      keysOf (manageArrowsFlatten 0 (removeSender collisionInput9 "a") (fun _ => none)).arrows ∧
    fromToId "a" "b -> c" ∉
      (keyedJoin (keysOf (manageArrowsFlatten 0 collisionInput9 (fun _ => none)).arrows)
        (keysOf (manageArrowsFlatten 0 (removeSender collisionInput9 "a")
          (fun _ => none)).arrows)).removed :=
  ⟨by decide, by decide, by decide, by decide, by decide⟩
